import Mathlib

/-!
Verification of the `mind_mate_ai` document-ingestion pipeline.

This file gives a shallow embedding of the repository's core components
(`data_ingestion/data_ingestion.py` and `toxic_filter/toxic_filter.py`) and
proves or refutes the specified properties about them.

Modelling conventions:
* Python strings are `List Char`; token id lists are `List ℕ`.
* Floating-point scores are modelled as exact rationals `ℚ` (the pipeline only
  rounds, compares and prints scores; no claim depends on binary-float fuzz).
* External effects (file system, PDF/DOCX readers, the tokenizer and the
  toxicity classifier) are oracle functions collected in an `Env` record.
  A Python exception raised by such a call is an `Except.error`; code that has
  no `try`/`except` must propagate the error, code with a handler maps it to
  its handler's result.
* Each `re.sub` call of `clean_text` is embedded as a left-to-right scanner,
  implemented with a fuel parameter so that it is structurally recursive and
  hence kernel-evaluable; fuel `length + 1` is always sufficient because every
  step consumes at least one character of the remaining input.
-/

/- The Batteries `Rat` arithmetic operations are `@[irreducible]`, which only
blocks elaborator-side evaluation; re-allow it so that `decide` can evaluate
concrete pipeline runs involving scores (the kernel ignores reducibility
attributes, so proofs are unaffected). -/
attribute [local semireducible] Rat.mul Rat.inv Rat.add Rat.sub

/-- Python's `\s` / `str.strip` whitespace test, modelled by `Char.isWhitespace`. -/
def isWs (c : Char) : Bool := c.isWhitespace

/-- Scanner for `re.sub(r'http\S+', '', text)` (data_ingestion.py line 31).
At each position: if the text starts with `"http"` followed by at least one
non-whitespace character, the match (`"http"` plus the maximal following run of
non-whitespace) is removed and scanning resumes after it; otherwise the head
character is kept.  `\S+` needs at least one character, so `"http"` followed by
whitespace or end of input is not a match. -/
def subUrlGo : ℕ → List Char → List Char
  | 0, s => s
  | _ + 1, [] => []
  | fuel + 1, c :: cs =>
    if c == 'h' && cs.take 3 == ['t', 't', 'p'] &&
        (match cs.drop 3 with
         | d :: _ => !isWs d
         | [] => false) then
      subUrlGo fuel ((cs.drop 3).dropWhile (fun d => !isWs d))
    else c :: subUrlGo fuel cs

/-- `re.sub(r'http\S+', '', text)` — data_ingestion.py line 31. -/
def sub_url (s : List Char) : List Char := subUrlGo (s.length + 1) s

/-- Does the input start with a `\d{2}/\d{2}/\d{4}, \d{2}:\d{2}` match
(17 characters)? -/
def isTsAt : List Char → Bool
  | d1 :: d2 :: '/' :: d3 :: d4 :: '/' :: y1 :: y2 :: y3 :: y4 :: ',' :: ' ' :: h1 :: h2 :: ':' :: m1 :: m2 :: _ =>
    d1.isDigit && d2.isDigit && d3.isDigit && d4.isDigit &&
    y1.isDigit && y2.isDigit && y3.isDigit && y4.isDigit &&
    h1.isDigit && h2.isDigit && m1.isDigit && m2.isDigit
  | _ => false

/-- Scanner for `re.sub(r'\d{2}/\d{2}/\d{4}, \d{2}:\d{2}', '', text)`
(data_ingestion.py line 32). -/
def subTsGo : ℕ → List Char → List Char
  | 0, s => s
  | _ + 1, [] => []
  | fuel + 1, c :: cs =>
    if isTsAt (c :: cs) then subTsGo fuel ((c :: cs).drop 17)
    else c :: subTsGo fuel cs

/-- `re.sub(r'\d{2}/\d{2}/\d{4}, \d{2}:\d{2}', '', text)` — data_ingestion.py line 32. -/
def sub_ts (s : List Char) : List Char := subTsGo (s.length + 1) s

/-- `re.sub(r'\s+', ' ', text)`: every maximal run of whitespace becomes a
single `' '` (first half of data_ingestion.py line 33). -/
def collapseWS : List Char → List Char
  | [] => []
  | [c] => if isWs c then [' '] else [c]
  | a :: b :: t =>
    if isWs a then
      if isWs b then collapseWS (b :: t)
      else ' ' :: collapseWS (b :: t)
    else a :: collapseWS (b :: t)

/-- Removal of trailing whitespace (part of Python `str.strip`). -/
def stripTrail : List Char → List Char
  | [] => []
  | c :: cs =>
    match stripTrail cs with
    | [] => if isWs c then [] else [c]
    | d :: t => c :: d :: t

/-- Python `str.strip()`: drop leading and trailing whitespace. -/
def pyStrip (s : List Char) : List Char := stripTrail (s.dropWhile isWs)

/-- `re.sub(r'\s+', ' ', text).strip()` — data_ingestion.py line 33. -/
def sub_ws (s : List Char) : List Char := pyStrip (collapseWS s)

/-- Scanner for `re.sub(r'(\*|-)\s+', '\n• ', text)` (data_ingestion.py
line 34).  The flag records whether we are still consuming the (greedy) `\s+`
run of the current match. -/
def subBulletGo : ℕ → Bool → List Char → List Char
  | 0, _, s => s
  | _ + 1, _, [] => []
  | fuel + 1, skipping, c :: cs =>
    if skipping && isWs c then subBulletGo fuel true cs
    else if (c == '*' || c == '-') &&
        (match cs with
         | d :: _ => isWs d
         | [] => false) then
      '\n' :: '•' :: ' ' :: subBulletGo fuel true cs
    else c :: subBulletGo fuel false cs

/-- `re.sub(r'(\*|-)\s+', '\n• ', text)` — data_ingestion.py line 34. -/
def sub_bullet (s : List Char) : List Char := subBulletGo (s.length + 1) false s

/-- Scanner for `re.sub(r'\(Link:\s*(.*?)\)', r' [→ \1]', text)`
(data_ingestion.py line 35).  After the literal `"(Link:"` the greedy `\s*`
takes the maximal whitespace run; the lazy `(.*?)` then reaches the next `')'`,
and succeeds exactly when no newline stands between them (`.` does not match
`'\n'`; shrinking `\s*` cannot rescue a failed attempt because the abandoned
whitespace would land inside `.*?`). -/
def subLink5Go : ℕ → List Char → List Char
  | 0, s => s
  | _ + 1, [] => []
  | fuel + 1, c :: cs =>
    if c == '(' && cs.take 5 == ['L', 'i', 'n', 'k', ':'] then
      let r2 := (cs.drop 5).dropWhile isWs
      let m := r2.takeWhile (fun d => d != ')')
      match r2.dropWhile (fun d => d != ')') with
      | ')' :: after =>
        if m.contains '\n' then c :: subLink5Go fuel cs
        else ' ' :: '[' :: '→' :: ' ' :: (m ++ ']' :: subLink5Go fuel after)
      | _ => c :: subLink5Go fuel cs
    else c :: subLink5Go fuel cs

/-- `re.sub(r'\(Link:\s*(.*?)\)', r' [→ \1]', text)` — data_ingestion.py line 35. -/
def sub_link5 (s : List Char) : List Char := subLink5Go (s.length + 1) s

/-- Scanner for `re.sub(r'\(Link:\s*\)', '', text)` (data_ingestion.py
line 36): `"(Link:"`, optional whitespace, then `')'` immediately. -/
def subLink6Go : ℕ → List Char → List Char
  | 0, s => s
  | _ + 1, [] => []
  | fuel + 1, c :: cs =>
    if c == '(' && cs.take 5 == ['L', 'i', 'n', 'k', ':'] then
      match (cs.drop 5).dropWhile isWs with
      | ')' :: after => subLink6Go fuel after
      | _ => c :: subLink6Go fuel cs
    else c :: subLink6Go fuel cs

/-- `re.sub(r'\(Link:\s*\)', '', text)` — data_ingestion.py line 36. -/
def sub_link6 (s : List Char) : List Char := subLink6Go (s.length + 1) s

/-- Scanner for `re.sub(r'\(Link:\s*[^)]+\)', '', text)` (data_ingestion.py
line 37): `"(Link:"`, then at least one character before the next `')'`
(`\s*` and `[^)]+` together cover any non-empty `')'`-free gap). -/
def subLink7Go : ℕ → List Char → List Char
  | 0, s => s
  | _ + 1, [] => []
  | fuel + 1, c :: cs =>
    if c == '(' && cs.take 5 == ['L', 'i', 'n', 'k', ':'] then
      let g := (cs.drop 5).takeWhile (fun d => d != ')')
      match (cs.drop 5).dropWhile (fun d => d != ')') with
      | ')' :: after =>
        if g.isEmpty then c :: subLink7Go fuel cs
        else subLink7Go fuel after
      | _ => c :: subLink7Go fuel cs
    else c :: subLink7Go fuel cs

/-- `re.sub(r'\(Link:\s*[^)]+\)', '', text)` — data_ingestion.py line 37. -/
def sub_link7 (s : List Char) : List Char := subLink7Go (s.length + 1) s

/-- `clean_text` — data_ingestion.py lines 29-39: the six `re.sub` rewrites
applied in source order. -/
def clean_text (text : List Char) : List Char :=
  sub_link7 (sub_link6 (sub_link5 (sub_bullet (sub_ws (sub_ts (sub_url text))))))

/-- `filter_excessive_eos` loop body — data_ingestion.py lines 41-55.  The
last argument is the running `eos_count`. -/
def filterEosGo : List ℕ → ℕ → ℕ → ℕ → List ℕ
  | [], _, _, _ => []
  | t :: ts, eos, maxr, cnt =>
    if t == eos then
      if cnt + 1 ≤ maxr then t :: filterEosGo ts eos maxr (cnt + 1)
      else filterEosGo ts eos maxr (cnt + 1)
    else t :: filterEosGo ts eos maxr 0

/-- `filter_excessive_eos(tokens, eos_id, max_repeats=2)` — data_ingestion.py
lines 41-55: keep at most `max_repeats` consecutive copies of `eos_id`. -/
def filter_excessive_eos (tokens : List ℕ) (eos_id : ℕ) (max_repeats : ℕ := 2) : List ℕ :=
  filterEosGo tokens eos_id max_repeats 0

/-- `trim_eos(tokens, eos_id)` — data_ingestion.py lines 57-69: the loop
`while tokens and tokens[-1] == eos_id: tokens.pop()` removes exactly the
maximal trailing run of `eos_id` tokens, i.e. drops `eos_id`s from the
reversed list. -/
def trim_eos (tokens : List ℕ) (eos_id : ℕ) : List ℕ :=
  ((tokens.reverse).dropWhile (fun t => t == eos_id)).reverse

/-- `os.path.basename` (POSIX): everything after the last `'/'`. -/
def basename (p : List Char) : List Char :=
  ((p.reverse).takeWhile (fun c => c != '/')).reverse

/-- The extension part of `os.path.splitext(p)`: within the basename, the
suffix from the last `'.'`, except that leading dots of the basename never
start an extension. -/
def splitextExt (p : List Char) : List Char :=
  let b := basename p
  let rest := b.drop (b.takeWhile (fun c => c == '.')).length
  if rest.contains '.' then
    '.' :: ((rest.reverse).takeWhile (fun c => c != '.')).reverse
  else []

/-- `os.path.splitext(file_path)[1].lower()` — data_ingestion.py line 73. -/
def extOf (p : List Char) : List Char := (splitextExt p).map Char.toLower

/-- One entry of the list returned by the `transformers` text-classification
pipeline: a label plus a confidence score. -/
structure ClsOut where
  label : List Char
  score : ℚ
  deriving DecidableEq

/-- The scan `for r in results: if r["label"].upper() == "TOXIC": return r["score"]`
followed by `return 0.0` — toxic_filter.py lines 23-26. -/
def scanToxic : List ClsOut → ℚ
  | [] => 0
  | r :: rs =>
    if r.label.map Char.toUpper == "TOXIC".toList then r.score else scanToxic rs

/-- `get_toxicity_score(text, max_length=1000)` — toxic_filter.py lines 10-26.
The module-level `toxicity_classifier` pipeline is passed as an oracle; a
classifier exception is `Except.error`, and since the source has no
`try`/`except`, the error propagates out of the adapter. -/
def get_toxicity_score (classifier : List Char → Except (List Char) (List ClsOut))
    (text : List Char) (max_length : ℕ := 1000) : Except (List Char) ℚ :=
  let truncated_text := text.take max_length
  match classifier truncated_text with
  | Except.error e => Except.error e
  | Except.ok results => Except.ok (scanToxic results)

/-- The per-file record built by `process_file` — data_ingestion.py
lines 136-140. -/
structure FileRecord where
  filename : List Char
  cleaned_text : List Char
  toxicity : ℚ
  deriving DecidableEq

/-- Floor of a rational, computably. -/
def ratFloor (q : ℚ) : ℤ := Int.fdiv q.num (q.den : ℤ)

/-- Round-half-to-even to an integer, modelling Python's `round`. -/
def roundHalfEven (q : ℚ) : ℤ :=
  let f := ratFloor q
  let r := q - (f : ℚ)
  if r < 1 / 2 then f
  else if 1 / 2 < r then f + 1
  else if f % 2 = 0 then f else f + 1

/-- `round(float(toxicity_score), 4)` — data_ingestion.py line 139. -/
def round4 (q : ℚ) : ℚ := (roundHalfEven (q * 10000) : ℚ) / 10000

/-- Decimal digits of a natural number (fuel-based so it is kernel-evaluable;
`n + 1` digits always suffice). -/
def natDigitsGo : ℕ → ℕ → List Char
  | 0, _ => []
  | fuel + 1, n =>
    if n < 10 then [Char.ofNat (48 + n)]
    else natDigitsGo fuel (n / 10) ++ [Char.ofNat (48 + n % 10)]

/-- Decimal rendering of a natural number. -/
def natToChars (n : ℕ) : List Char := natDigitsGo (n + 1) n

/-- Drop trailing `'0'` characters. -/
def stripTrailZeros (l : List Char) : List Char :=
  ((l.reverse).dropWhile (fun c => c == '0')).reverse

/-- Python's default rendering (`repr`/`str`, as used by an f-string with no
format spec) of a toxicity value that has been rounded to 4 decimal places:
the shortest round-tripping decimal, i.e. the 4-digit fraction with trailing
zeros removed, keeping at least one fractional digit. -/
def renderTox (q : ℚ) : List Char :=
  let n := (ratFloor (q * 10000)).toNat
  let fr := n % 10000
  let frStr :=
    match stripTrailZeros
        [Char.ofNat (48 + fr / 1000), Char.ofNat (48 + fr / 100 % 10),
         Char.ofNat (48 + fr / 10 % 10), Char.ofNat (48 + fr % 10)] with
    | [] => ['0']
    | l => l
  natToChars (n / 10000) ++ '.' :: frStr

/-- Modelled from the spec: the output framing `(Toxicity: <score, 2 decimals>)`
(spec §6) renders the score with exactly two decimal digits, `"%.2f"`-style.
This definition exists only to compare the specified rendering with the one the
code performs. -/
def render_score_2dp (q : ℚ) : List Char :=
  let n := (roundHalfEven (q * 100)).toNat
  natToChars (n / 100) ++ '.' :: [Char.ofNat (48 + n / 10 % 10), Char.ofNat (48 + n % 10)]

/-- The external collaborators of one ingestion run, as oracles.  An
`Except.error` result models the corresponding Python call raising. -/
structure Env where
  /-- `os.path.isfile` -/
  isfile : List Char → Bool
  /-- `PdfReader(path)` plus `page.extract_text()` for each page -/
  readPdfPages : List Char → Except (List Char) (List (List Char))
  /-- `docx.Document(path)` plus `p.text` for each paragraph -/
  readDocxParas : List Char → Except (List Char) (List (List Char))
  /-- `open(path).read()` for a `.txt` file -/
  readTxt : List Char → Except (List Char) (List Char)
  /-- `tokenizer(raw_text, ...)["input_ids"][0].tolist()` -/
  tokenize : List Char → Except (List Char) (List ℕ)
  /-- `tokenizer.eos_token_id` -/
  eos_id : ℕ
  /-- `tokenizer.decode(tokens)` -/
  decode : List ℕ → Except (List Char) (List Char)
  /-- `tokenizer.model_max_length` -/
  model_max_length : ℕ
  /-- `toxicity_classifier(text)` -/
  classify : List Char → Except (List Char) (List ClsOut)
  /-- whether `future.result(timeout=15)` for this path raises (timeout) -/
  times_out : List Char → Bool

/-- `extract_text(file_path)` — data_ingestion.py lines 71-91: dispatch on the
lower-cased extension; any exception inside the `try` block (a failing reader)
is caught and yields `None`; unsupported extensions yield `None` without
raising. -/
def extract_text (env : Env) (file_path : List Char) : Option (List Char) :=
  let ext := extOf file_path
  if ext == ".pdf".toList then
    match env.readPdfPages file_path with
    | Except.error _ => none
    | Except.ok pages =>
      some (clean_text (List.intercalate ['\n']
        ((pages.filter (fun pg => !pg.isEmpty)).map pyStrip)))
  else if ext == ".docx".toList then
    match env.readDocxParas file_path with
    | Except.error _ => none
    | Except.ok paras =>
      some (clean_text (List.intercalate ['\n']
        ((paras.map pyStrip).filter (fun pg => !pg.isEmpty))))
  else if ext == ".txt".toList then
    match env.readTxt file_path with
    | Except.error _ => none
    | Except.ok content => some (clean_text content)
  else none

/-- `process_file(file_path)` — data_ingestion.py lines 93-144.  The whole body
sits in a `try` whose `except Exception` returns `None`, so every error raised
by an oracle call inside the sequence — including one propagated out of
`get_toxicity_score` — becomes `none` here.  (The `encode("utf-8","ignore")`
re-encoding is the identity on our character model.) -/
def process_file (env : Env) (file_path : List Char) : Option FileRecord :=
  if !env.isfile file_path then none
  else
    match extract_text env file_path with
    | none => none
    | some raw_text =>
      if raw_text.isEmpty || (pyStrip raw_text).isEmpty then none
      else
        match env.tokenize raw_text with
        | Except.error _ => none
        | Except.ok encoded =>
          let filtered_tokens := filter_excessive_eos encoded env.eos_id 5
          let trimmed_tokens := trim_eos filtered_tokens env.eos_id
          if trimmed_tokens.isEmpty then none
          else
            match env.decode trimmed_tokens with
            | Except.error _ => none
            | Except.ok cleaned_text =>
              let truncated_text := cleaned_text.take env.model_max_length
              match get_toxicity_score env.classify truncated_text with
              | Except.error _ => none
              | Except.ok toxicity_score =>
                some { filename := basename file_path
                       cleaned_text := cleaned_text
                       toxicity := round4 toxicity_score }

/-- One iteration of the collection loop `for future in future_to_file:` —
data_ingestion.py lines 160-166.  `future.result(timeout=15)` either raises
(modelled by `times_out`, yielding nothing for that file only) or returns what
`process_file` returned (`process_file` itself never raises). -/
def worker_outcome (env : Env) (p : List Char) : Option FileRecord :=
  if env.times_out p then none else process_file env p

/-- The collection loop of `ingest_files` — data_ingestion.py lines 160-166:
the futures dict iterates in insertion order, i.e. in `valid_paths` order, and
only truthy results are appended. -/
def collect_results (env : Env) : List (List Char) → List FileRecord
  | [] => []
  | p :: ps =>
    match worker_outcome env p with
    | some r => r :: collect_results env ps
    | none => collect_results env ps

/-- The inclusion predicate of the list comprehension on data_ingestion.py
line 169: `not skip_toxic or r["toxicity"] < toxicity_threshold`. -/
def includeRecord (skip_toxic : Bool) (toxicity_threshold : ℚ) (r : FileRecord) : Bool :=
  !skip_toxic || decide (r.toxicity < toxicity_threshold)

/-- The two `f.write` calls per included record — data_ingestion.py
lines 174-175: the header line (score printed with Python's default float
rendering — the f-string has no format spec) then the cleaned text and a blank
line. -/
def render_item (r : FileRecord) : List Char :=
  "=== File: ".toList ++ r.filename ++ " (Toxicity: ".toList ++ renderTox r.toxicity ++
    ") ===".toList ++ '\n' :: (r.cleaned_text ++ ['\n', '\n'])

/-- The output-writing loop of `ingest_files` — data_ingestion.py
lines 172-175. -/
def write_corpus : List FileRecord → List Char
  | [] => []
  | r :: rs => render_item r ++ write_corpus rs

/-- `ingest_files(file_paths, output_path, max_workers, skip_toxic,
toxicity_threshold)` — data_ingestion.py lines 147-180.  Returns the list the
function returns plus the written artifact (`none` when the early-exit on line
152 fires and no file is written).  `max_workers` only sizes the pool and is
dropped; results are collected in submission order regardless. -/
def ingest_files (env : Env) (file_paths : List (List Char))
    (skip_toxic : Bool := true) (toxicity_threshold : ℚ := 1 / 2) :
    List FileRecord × Option (List Char) :=
  let valid_paths := file_paths.filter env.isfile
  if valid_paths = [] then ([], none)
  else
    let results := collect_results env valid_paths
    let filtered_results := results.filter (includeRecord skip_toxic toxicity_threshold)
    (filtered_results, some (write_corpus filtered_results))

/-- A concrete environment with two plain-text files: `good.txt` (scored 0.1)
and `bad.txt` (scored 0.9). -/
def envA : Env where
  isfile := fun p => p == "good.txt".toList || p == "bad.txt".toList
  readPdfPages := fun _ => Except.error []
  readDocxParas := fun _ => Except.error []
  readTxt := fun p =>
    if p == "good.txt".toList then Except.ok "hi".toList
    else if p == "bad.txt".toList then Except.ok "ev".toList
    else Except.error []
  tokenize := fun s => if s == "hi".toList then Except.ok [1, 2] else Except.ok [3, 4]
  eos_id := 0
  decode := fun ts => if ts == [1, 2] then Except.ok "hi".toList else Except.ok "ev".toList
  model_max_length := 512
  classify := fun s =>
    if s == "hi".toList then Except.ok [⟨"toxic".toList, 1 / 10⟩]
    else Except.ok [⟨"TOXIC".toList, 9 / 10⟩]
  times_out := fun _ => false

/-- The record `envA` produces for `good.txt`. -/
def goodRec : FileRecord := ⟨"good.txt".toList, "hi".toList, 1 / 10⟩

/-- The record `envA` produces for `bad.txt`. -/
def badRec : FileRecord := ⟨"bad.txt".toList, "ev".toList, 9 / 10⟩

/-- Like `envA`, but with a third path `crash.txt` whose read raises an
`OSError` (modelled as `Except.error`). -/
def envB : Env :=
  { envA with
    isfile := fun p =>
      p == "good.txt".toList || p == "bad.txt".toList || p == "crash.txt".toList
    readTxt := fun p =>
      if p == "good.txt".toList then Except.ok "hi".toList
      else if p == "bad.txt".toList then Except.ok "ev".toList
      else Except.error "io error".toList }

/-- A classifier oracle whose call always raises (model-load failure). -/
def failingClassifier : List Char → Except (List Char) (List ClsOut) :=
  fun _ => Except.error "model failure".toList

/-- A classifier oracle that answers with a non-toxic label. -/
def neutralClassifier : List Char → Except (List Char) (List ClsOut) :=
  fun _ => Except.ok [⟨"neutral".toList, 3 / 4⟩]

/-- A record whose 4-decimal score is not representable with 2 decimal digits. -/
def recX : FileRecord := ⟨"a.txt".toList, "t".toList, 8125 / 10000⟩

/-- Is the head character (if any) a non-whitespace character?  `okWS` below
uses it to say that a space is not followed by another space. -/
def noLeadSp : List Char → Bool
  | [] => true
  | c :: _ => !isWs c

/-- Whitespace-normal form: every whitespace character is `' '` and no two
whitespace characters are adjacent.  `collapseWS` always produces this form
and is the identity on it. -/
def okWS : List Char → Bool
  | [] => true
  | a :: t => (if isWs a then a == ' ' && noLeadSp t else true) && okWS t

/-! ### Helper lemmas about whitespace normalization -/

theorem okWS_cons (a : Char) (t : List Char) :
    okWS (a :: t) = ((if isWs a then a == ' ' && noLeadSp t else true) && okWS t) := rfl

theorem okWS_cons_iff {a : Char} {t : List Char} :
    okWS (a :: t) = true ↔
      ((isWs a = true → a = ' ' ∧ noLeadSp t = true) ∧ okWS t = true) := by
  rw [okWS_cons]
  by_cases ha : isWs a = true
  · simp [ha]
  · simp [ha]

theorem collapseWS_two (a b : Char) (t : List Char) :
    collapseWS (a :: b :: t) =
      (if isWs a then
        if isWs b then collapseWS (b :: t) else ' ' :: collapseWS (b :: t)
      else a :: collapseWS (b :: t)) := rfl

theorem collapseWS_one (c : Char) :
    collapseWS [c] = (if isWs c then [' '] else [c]) := rfl

theorem collapseWS_head_nonspace {b : Char} (t : List Char) (hb : ¬isWs b = true) :
    ∃ l, collapseWS (b :: t) = b :: l := by
  cases t with
  | nil => exact ⟨[], by rw [collapseWS_one, if_neg hb]⟩
  | cons c t' => exact ⟨collapseWS (c :: t'), by rw [collapseWS_two, if_neg hb]⟩

theorem okWS_collapseWS (s : List Char) : okWS (collapseWS s) = true := by
  induction s with
  | nil => rfl
  | cons a t ih =>
    cases t with
    | nil =>
      rw [collapseWS_one]
      by_cases ha : isWs a = true
      · rw [if_pos ha]; decide
      · rw [if_neg ha]
        rw [okWS_cons_iff]
        exact ⟨fun h => absurd h ha, rfl⟩
    | cons b t' =>
      rw [collapseWS_two]
      by_cases ha : isWs a = true
      · rw [if_pos ha]
        by_cases hb : isWs b = true
        · rw [if_pos hb]; exact ih
        · rw [if_neg hb]
          obtain ⟨l, hl⟩ := collapseWS_head_nonspace t' hb
          rw [hl] at ih ⊢
          rw [okWS_cons_iff]
          refine ⟨fun _ => ⟨rfl, ?_⟩, ih⟩
          simp [noLeadSp, Bool.not_eq_true] at hb ⊢
          exact hb
      · rw [if_neg ha, okWS_cons_iff]
        exact ⟨fun h => absurd h ha, ih⟩

theorem collapseWS_fix (s : List Char) (h : okWS s = true) : collapseWS s = s := by
  induction s with
  | nil => rfl
  | cons a t ih =>
    cases t with
    | nil =>
      rw [collapseWS_one]
      by_cases ha : isWs a = true
      · obtain ⟨h1, _⟩ := okWS_cons_iff.mp h
        obtain ⟨ha', _⟩ := h1 ha
        rw [if_pos ha, ha']
      · rw [if_neg ha]
    | cons b t' =>
      obtain ⟨h1, h2⟩ := okWS_cons_iff.mp h
      rw [collapseWS_two]
      by_cases ha : isWs a = true
      · obtain ⟨ha', hn⟩ := h1 ha
        have hb : ¬isWs b = true := by
          simp [noLeadSp] at hn
          simp [hn]
        rw [if_pos ha, if_neg hb, ih h2, ha']
      · rw [if_neg ha, ih h2]

theorem okWS_dropWhile (s : List Char) (h : okWS s = true) :
    okWS (s.dropWhile isWs) = true := by
  induction s with
  | nil => simpa using h
  | cons a t ih =>
    obtain ⟨_, h2⟩ := okWS_cons_iff.mp h
    by_cases ha : isWs a = true
    · rw [List.dropWhile_cons, if_pos ha]
      exact ih h2
    · rw [List.dropWhile_cons, if_neg ha]
      exact h

theorem noLeadSp_dropWhile (s : List Char) : noLeadSp (s.dropWhile isWs) = true := by
  induction s with
  | nil => rfl
  | cons a t ih =>
    by_cases ha : isWs a = true
    · rw [List.dropWhile_cons, if_pos ha]
      exact ih
    · rw [List.dropWhile_cons, if_neg ha]
      simpa [noLeadSp, Bool.not_eq_true] using ha

theorem stripTrail_cons (c : Char) (cs : List Char) :
    stripTrail (c :: cs) =
      (match stripTrail cs with
       | [] => if isWs c then [] else [c]
       | d :: t => c :: d :: t) := rfl

theorem stripTrail_shape (c : Char) (cs : List Char) :
    stripTrail (c :: cs) = [] ∨ ∃ l, stripTrail (c :: cs) = c :: l := by
  rw [stripTrail_cons]
  cases h : stripTrail cs with
  | nil =>
    by_cases hc : isWs c = true
    · exact Or.inl (by simp [hc])
    · exact Or.inr ⟨[], by simp [hc]⟩
  | cons d t => exact Or.inr ⟨d :: t, by simp⟩

theorem stripTrail_isPre (s : List Char) : stripTrail s <+: s := by
  induction s with
  | nil => exact ⟨[], rfl⟩
  | cons c cs ih =>
    rw [stripTrail_cons]
    cases h : stripTrail cs with
    | nil =>
      by_cases hc : isWs c = true
      · exact ⟨c :: cs, by simp [hc]⟩
      · exact ⟨cs, by simp [hc]⟩
    | cons d t =>
      rw [h] at ih
      obtain ⟨u, hu⟩ := ih
      exact ⟨u, by simpa using congrArg (c :: ·) hu⟩

theorem okWS_append_left {s u : List Char} (h : okWS (s ++ u) = true) : okWS s = true := by
  induction s with
  | nil => rfl
  | cons a t ih =>
    obtain ⟨h1, h2⟩ := okWS_cons_iff.mp h
    rw [okWS_cons_iff]
    refine ⟨?_, ih h2⟩
    intro ha
    obtain ⟨ha', hn⟩ := h1 ha
    refine ⟨ha', ?_⟩
    cases t with
    | nil => rfl
    | cons b t' => simpa [noLeadSp] using hn

theorem okWS_of_isPre {s t : List Char} (h : s <+: t) (ht : okWS t = true) :
    okWS s = true := by
  obtain ⟨u, rfl⟩ := h
  exact okWS_append_left ht

theorem noLeadSp_stripTrail {s : List Char} (h : noLeadSp s = true) :
    noLeadSp (stripTrail s) = true := by
  cases s with
  | nil => rfl
  | cons c cs =>
    rcases stripTrail_shape c cs with h' | ⟨l, h'⟩
    · simp [h', noLeadSp]
    · rw [h']
      simpa [noLeadSp] using h

theorem stripTrail_idem (s : List Char) : stripTrail (stripTrail s) = stripTrail s := by
  induction s with
  | nil => rfl
  | cons c cs ih =>
    rw [stripTrail_cons]
    cases h : stripTrail cs with
    | nil =>
      by_cases hc : isWs c = true
      · rw [if_pos hc]
        rfl
      · rw [if_neg hc]
        show stripTrail [c] = [c]
        rw [stripTrail_cons]
        simp only [if_neg hc]
        rfl
    | cons d t =>
      rw [h] at ih
      simp only
      rw [stripTrail_cons, ih]

theorem dropWhile_fix {s : List Char} (h : noLeadSp s = true) :
    s.dropWhile isWs = s := by
  cases s with
  | nil => rfl
  | cons c cs =>
    simp [noLeadSp, Bool.not_eq_true] at h
    rw [List.dropWhile_cons, if_neg (by simp [h])]

/-- The whitespace-normalization step of `clean_text` (collapse runs, then
strip the ends) is idempotent. -/
theorem sub_ws_idem (s : List Char) : sub_ws (sub_ws s) = sub_ws s := by
  have hX : okWS (collapseWS s) = true := okWS_collapseWS s
  have hY : okWS ((collapseWS s).dropWhile isWs) = true := okWS_dropWhile _ hX
  have hYl : noLeadSp ((collapseWS s).dropWhile isWs) = true := noLeadSp_dropWhile _
  have hZ : okWS (pyStrip (collapseWS s)) = true :=
    okWS_of_isPre (stripTrail_isPre _) hY
  have hZl : noLeadSp (pyStrip (collapseWS s)) = true := noLeadSp_stripTrail hYl
  show pyStrip (collapseWS (pyStrip (collapseWS s))) = pyStrip (collapseWS s)
  rw [collapseWS_fix _ hZ]
  show stripTrail ((pyStrip (collapseWS s)).dropWhile isWs) = pyStrip (collapseWS s)
  rw [dropWhile_fix hZl]
  exact stripTrail_idem _

/-! ### C2: idempotence of the text normalizer -/

/-- C2 (counterexample): `clean_text` is not idempotent.  On `"* a"` the first
pass rewrites the bullet to `"\n• a"`; the second pass's whitespace collapse
turns the newline into a space and strips it, giving `"• a"` — the bullet
glyph `'•'` is not itself a bullet marker, so the structure is not restored. -/
theorem clean_text_not_idempotent :
    clean_text (clean_text ['*', ' ', 'a']) ≠ clean_text ['*', ' ', 'a'] := by
  decide

/-- C2 (amended): the normalizer is idempotent on every input on which the
pattern rewrites (URL removal, timestamp removal, bullet conversion, Link
rewriting) do not fire — neither on the input nor on its whitespace-normalized
form.  For such inputs `clean_text` is exactly whitespace normalization, which
is idempotent.  (In general idempotence fails: see the counterexample.) -/
theorem clean_text_idempotent_of_rewrites_inert (s : List Char)
    (h1 : sub_url s = s) (h2 : sub_ts s = s)
    (h1' : sub_url (sub_ws s) = sub_ws s) (h2' : sub_ts (sub_ws s) = sub_ws s)
    (h4 : sub_bullet (sub_ws s) = sub_ws s)
    (h5 : sub_link5 (sub_ws s) = sub_ws s)
    (h6 : sub_link6 (sub_ws s) = sub_ws s)
    (h7 : sub_link7 (sub_ws s) = sub_ws s) :
    clean_text (clean_text s) = clean_text s := by
  have hcs : clean_text s = sub_ws s := by
    unfold clean_text
    rw [h1, h2, h4, h5, h6, h7]
  rw [hcs]
  unfold clean_text
  rw [h1', h2', sub_ws_idem, h4, h5, h6, h7]

/-- Witness for `clean_text_idempotent_of_rewrites_inert` at `"ab  cd"`. -/
theorem clean_text_idempotent_witness :
    clean_text (clean_text "ab  cd".toList) = clean_text "ab  cd".toList :=
  clean_text_idempotent_of_rewrites_inert "ab  cd".toList (by decide) (by decide)
    (by decide) (by decide) (by decide) (by decide) (by decide) (by decide)

/-! ### C3 / C8: the toxicity oracle adapter -/

theorem scanToxic_eq_zero {results : List ClsOut}
    (h : ∀ r ∈ results, ¬r.label.map Char.toUpper = "TOXIC".toList) :
    scanToxic results = 0 := by
  induction results with
  | nil => rfl
  | cons r rs ih =>
    show (if r.label.map Char.toUpper == "TOXIC".toList then r.score else scanToxic rs) = 0
    rw [if_neg (by simpa using h r (by simp))]
    exact ih (fun x hx => h x (by simp [hx]))

/-- C3 (counterexample): when the classifier call fails, `get_toxicity_score`
does not return 0.0 — it has no exception handler, so the error propagates
out of the adapter (it is `process_file`, one level up, that catches it). -/
theorem get_toxicity_score_raises_on_failure :
    get_toxicity_score failingClassifier "abc".toList 1000 =
        Except.error "model failure".toList ∧
      get_toxicity_score failingClassifier "abc".toList 1000 ≠ Except.ok 0 := by
  refine ⟨rfl, ?_⟩
  intro hc
  rw [show get_toxicity_score failingClassifier "abc".toList 1000 =
      Except.error "model failure".toList from rfl] at hc
  exact Except.noConfusion hc

/-- C3 (amended): when the classifier call succeeds, the adapter always
returns a numeric score, and returns 0.0 whenever no result carries the label
`"TOXIC"` (case-insensitively); when the classifier call fails, the exception
propagates out of the adapter unchanged instead of being mapped to 0.0. -/
theorem get_toxicity_score_amended
    (classifier : List Char → Except (List Char) (List ClsOut))
    (text : List Char) (ml : ℕ) :
    (∀ e, classifier (text.take ml) = Except.error e →
        get_toxicity_score classifier text ml = Except.error e) ∧
    (∀ results, classifier (text.take ml) = Except.ok results →
        get_toxicity_score classifier text ml = Except.ok (scanToxic results) ∧
        ((∀ r ∈ results, ¬r.label.map Char.toUpper = "TOXIC".toList) →
          get_toxicity_score classifier text ml = Except.ok 0)) := by
  constructor
  · intro e he
    show (match classifier (text.take ml) with
          | Except.error e => Except.error e
          | Except.ok results => Except.ok (scanToxic results)) = Except.error e
    rw [he]
  · intro results hr
    have hok : get_toxicity_score classifier text ml = Except.ok (scanToxic results) := by
      show (match classifier (text.take ml) with
            | Except.error e => Except.error e
            | Except.ok results => Except.ok (scanToxic results)) = _
      rw [hr]
    exact ⟨hok, fun hall => by rw [hok, scanToxic_eq_zero hall]⟩

/-- Witness for `get_toxicity_score_amended`: a succeeding classifier with a
non-toxic label makes the adapter answer 0. -/
theorem get_toxicity_score_amended_witness :
    get_toxicity_score neutralClassifier "xy".toList 1000 = Except.ok 0 :=
  ((get_toxicity_score_amended neutralClassifier "xy".toList 1000).2
    [⟨"neutral".toList, 3 / 4⟩] rfl).2 (by decide)

/-- C8: the adapter submits exactly the first `max_length` characters of its
input to the classifier: the submitted string `text.take ml` is a prefix of
`text` of length `min ml text.length`; the adapter's result only depends on
that prefix; and an input no longer than `max_length` is submitted unchanged. -/
theorem get_toxicity_score_bounded_input
    (classifier : List Char → Except (List Char) (List ClsOut))
    (text : List Char) (ml : ℕ) :
    (text.take ml).length = min ml text.length ∧
    text.take ml <+: text ∧
    get_toxicity_score classifier text ml =
      get_toxicity_score classifier (text.take ml) ml ∧
    (text.length ≤ ml → text.take ml = text) ∧
    (∀ classifier₂ : List Char → Except (List Char) (List ClsOut),
      classifier₂ (text.take ml) = classifier (text.take ml) →
      get_toxicity_score classifier₂ text ml = get_toxicity_score classifier text ml) := by
  refine ⟨List.length_take ml text, ⟨text.drop ml, List.take_append_drop ml text⟩, ?_, ?_, ?_⟩
  · show get_toxicity_score classifier text ml =
      (match classifier ((text.take ml).take ml) with
       | Except.error e => Except.error e
       | Except.ok results => Except.ok (scanToxic results))
    rw [List.take_take, min_self]
    rfl
  · exact fun h => List.take_of_length_le h
  · intro classifier₂ hc
    show (match classifier₂ (text.take ml) with
          | Except.error e => Except.error e
          | Except.ok results => Except.ok (scanToxic results)) =
        (match classifier (text.take ml) with
         | Except.error e => Except.error e
         | Except.ok results => Except.ok (scanToxic results))
    rw [hc]

/-- Witness for `get_toxicity_score_bounded_input`: the short-text hypothesis
discharged at `"ab"` with bound 1000, and the prefix fact at `"abcde"`, 3. -/
theorem get_toxicity_score_bounded_input_witness :
    "ab".toList.take 1000 = "ab".toList ∧ "abcde".toList.take 3 <+: "abcde".toList :=
  ⟨(get_toxicity_score_bounded_input neutralClassifier "ab".toList 1000).2.2.2.1 (by decide),
    (get_toxicity_score_bounded_input neutralClassifier "abcde".toList 3).2.1⟩

/-! ### C10: `trim_eos` -/

theorem dropWhile_head_false {α : Type} (p : α → Bool) (l : List α) :
    ∀ (x : α) (xs : List α), l.dropWhile p = x :: xs → p x = false := by
  induction l with
  | nil =>
    intro x xs h
    simp at h
  | cons a t ih =>
    intro x xs h
    by_cases hp : p a = true
    · rw [List.dropWhile_cons, if_pos hp] at h
      exact ih x xs h
    · rw [List.dropWhile_cons, if_neg hp] at h
      cases h
      simpa using hp

/-- The input splits as its trimmed form followed by a run of `eos_id`s. -/
theorem trim_eos_decomp (tokens : List ℕ) (e : ℕ) :
    ∃ k, tokens = trim_eos tokens e ++ List.replicate k e := by
  refine ⟨(tokens.reverse.takeWhile (fun t => t == e)).length, ?_⟩
  have h1 : tokens.reverse.takeWhile (fun t => t == e) =
      List.replicate ((tokens.reverse.takeWhile (fun t => t == e)).length) e := by
    apply List.eq_replicate_of_mem
    intro b hb
    simpa using List.mem_takeWhile_imp hb
  calc tokens = tokens.reverse.reverse := (List.reverse_reverse tokens).symm
    _ = ((tokens.reverse.takeWhile (fun t => t == e)) ++
          (tokens.reverse.dropWhile (fun t => t == e))).reverse := by
        rw [List.takeWhile_append_dropWhile]
    _ = (tokens.reverse.dropWhile (fun t => t == e)).reverse ++
          (tokens.reverse.takeWhile (fun t => t == e)).reverse := by
        rw [List.reverse_append]
    _ = trim_eos tokens e ++
          List.replicate ((tokens.reverse.takeWhile (fun t => t == e)).length) e := by
        conv_lhs => rw [h1]
        rw [List.reverse_replicate]
        rfl

/-- C10: `trim_eos` returns the longest prefix of its input that does not end
with `eos_id`: the result is a prefix, its last element (when it exists) is
not `eos_id`, and any prefix not ending in `eos_id` is at most as long. -/
theorem trim_eos_spec (tokens : List ℕ) (e : ℕ) :
    trim_eos tokens e <+: tokens ∧
    (∀ x, (trim_eos tokens e).getLast? = some x → x ≠ e) ∧
    (∀ p, p <+: tokens → (∀ x, p.getLast? = some x → x ≠ e) →
      p.length ≤ (trim_eos tokens e).length) := by
  obtain ⟨k, hd⟩ := trim_eos_decomp tokens e
  refine ⟨⟨List.replicate k e, hd.symm⟩, ?_, ?_⟩
  · intro x hx
    have hx' : ((tokens.reverse).dropWhile (fun t => t == e)).head? = some x := by
      rw [show trim_eos tokens e =
          ((tokens.reverse).dropWhile (fun t => t == e)).reverse from rfl,
        List.getLast?_reverse] at hx
      exact hx
    obtain ⟨ys, hys⟩ := List.head?_eq_some_iff.mp hx'
    have := dropWhile_head_false (fun t => t == e) tokens.reverse x ys hys
    simpa using this
  · intro p hp hlast
    by_contra hlen
    push_neg at hlen
    have htp : trim_eos tokens e <+: p :=
      List.prefix_of_prefix_length_le ⟨List.replicate k e, hd.symm⟩ hp (le_of_lt hlen)
    obtain ⟨s, hs⟩ := htp
    have hs_ne : s ≠ [] := by
      intro h0
      rw [h0, List.append_nil] at hs
      rw [← hs] at hlen
      exact lt_irrefl _ hlen
    obtain ⟨u, hu⟩ := hp
    rw [← hs, List.append_assoc] at hu
    have hsu : s ++ u = List.replicate k e := List.append_cancel_left (hu.trans hd)
    have hmem : ∀ x ∈ s, x = e := by
      intro x hx
      have hx2 : x ∈ s ++ u := List.mem_append_left u hx
      rw [hsu] at hx2
      exact List.eq_of_mem_replicate hx2
    cases s with
    | nil => exact hs_ne rfl
    | cons a s' =>
      have h1 : (a :: s').getLast? = some ((a :: s').getLast (by simp)) :=
        List.getLast?_eq_getLast (a :: s') (by simp)
      have hle : (a :: s').getLast (by simp) = e :=
        hmem _ (List.getLast_mem (by simp))
      have hp_last : p.getLast? = some e := by
        rw [← hs, List.getLast?_append, h1, hle]
        rfl
      exact hlast e hp_last rfl

/-- Witness for `trim_eos_spec` at `[7, 0, 0]` with `eos_id = 0`: the prefix
`[7]` (which does not end in the eos token) is no longer than the trimmed
result. -/
theorem trim_eos_spec_witness :
    trim_eos [7, 0, 0] 0 <+: [7, 0, 0] ∧ [7].length ≤ (trim_eos [7, 0, 0] 0).length :=
  ⟨(trim_eos_spec [7, 0, 0] 0).1,
    (trim_eos_spec [7, 0, 0] 0).2.2 [7] ⟨[0, 0], by decide⟩ (by decide)⟩

/-! ### Helper lemmas about the orchestrator -/

theorem collect_results_eq_filterMap (env : Env) (ps : List (List Char)) :
    collect_results env ps = ps.filterMap (worker_outcome env) := by
  induction ps with
  | nil => rfl
  | cons p ps ih =>
    show (match worker_outcome env p with
          | some r => r :: collect_results env ps
          | none => collect_results env ps) = _
    cases h : worker_outcome env p <;> simp [List.filterMap_cons, h, ih]

theorem collect_results_append (env : Env) (xs ys : List (List Char)) :
    collect_results env (xs ++ ys) =
      collect_results env xs ++ collect_results env ys := by
  simp [collect_results_eq_filterMap, List.filterMap_append]

theorem ingest_files_fst (env : Env) (paths : List (List Char)) (st : Bool) (th : ℚ) :
    (ingest_files env paths st th).1 =
      (collect_results env (paths.filter env.isfile)).filter (includeRecord st th) := by
  by_cases h : paths.filter env.isfile = []
  · simp [ingest_files, h, collect_results]
  · simp [ingest_files, h]

theorem ingest_files_eq (env : Env) (paths : List (List Char)) (st : Bool) (th : ℚ)
    (h : paths.filter env.isfile ≠ []) :
    ingest_files env paths st th =
      ((collect_results env (paths.filter env.isfile)).filter (includeRecord st th),
        some (write_corpus
          ((collect_results env (paths.filter env.isfile)).filter (includeRecord st th)))) := by
  simp [ingest_files, h]

/-! ### C1: excluded records and the returned list -/

/-- C1: at the failing input, `bad.txt` is processed successfully into a record
with toxicity 0.9, yet with `skip_toxic = true` and threshold 0.5 the list
`ingest_files` returns is only the included records: the excluded record is
absent from the returned list, not just from the artifact.  (Consequently the
caller-side high-toxicity warning over the returned list, app.py lines
146-147, can never fire.) -/
theorem ingest_drops_excluded_records_from_return :
    process_file envA "bad.txt".toList = some badRec ∧
    (ingest_files envA ["good.txt".toList, "bad.txt".toList] true (1 / 2)).1 = [goodRec] ∧
    badRec ∉ (ingest_files envA ["good.txt".toList, "bad.txt".toList] true (1 / 2)).1 := by
  decide

/-! ### C4: deterministic input-order serialization -/

/-- C4: the records serialized to the artifact are exactly the include-filtered
worker results of the valid paths, in original `paths` order (`filter` and
`filterMap` preserve list order), and the returned list is that same list.
The run is a pure function of the path list and the oracle environment, so two
runs over the same inputs with identical oracle responses produce identical
artifacts. -/
theorem ingest_output_input_order (env : Env) (paths : List (List Char))
    (st : Bool) (th : ℚ) (h : paths.filter env.isfile ≠ []) :
    (ingest_files env paths st th).2 =
      some (write_corpus (((paths.filter env.isfile).filterMap
        (worker_outcome env)).filter (includeRecord st th))) ∧
    (ingest_files env paths st th).1 =
      ((paths.filter env.isfile).filterMap (worker_outcome env)).filter
        (includeRecord st th) := by
  rw [ingest_files_eq env paths st th h, collect_results_eq_filterMap]
  exact ⟨rfl, rfl⟩

/-- Witness for `ingest_output_input_order` on the two-file environment. -/
theorem ingest_output_input_order_witness :
    (ingest_files envA ["good.txt".toList, "bad.txt".toList] true (1 / 2)).2 =
      some (write_corpus [goodRec]) := by
  have h := ingest_output_input_order envA ["good.txt".toList, "bad.txt".toList]
    true (1 / 2) (by decide)
  rw [h.1]
  decide

/-! ### C5: failure isolation -/

/-- C5 (counterexample): with one unreadable file among one valid file, the
returned list is `[goodRec]` — one outcome, not the two outcomes (record plus
Skip) the claim describes: skip outcomes are logged but never returned. -/
theorem ingest_no_skip_outcomes_returned :
    (ingest_files envB ["good.txt".toList, "crash.txt".toList] true (1 / 2)).1 =
        [goodRec] ∧
      (ingest_files envB ["good.txt".toList, "crash.txt".toList] true (1 / 2)).1.length
        = 1 := by
  decide

/-- C5 (amended): an oracle exception inside per-file processing (here: every
reader for the bad path raises) is caught at the `process_file` boundary and
converted to `none` — it never propagates — and a batch containing the bad
file completes with exactly the records of the other files, in order; the bad
file contributes nothing to the returned list (no Skip value is returned). -/
theorem ingest_failure_isolation (env : Env) (ps₁ ps₂ : List (List Char))
    (bad : List Char) (hb : env.isfile bad = true)
    (e₁ : List Char) (hpdf : env.readPdfPages bad = Except.error e₁)
    (e₂ : List Char) (hdocx : env.readDocxParas bad = Except.error e₂)
    (e₃ : List Char) (htxt : env.readTxt bad = Except.error e₃) :
    process_file env bad = none ∧
    ∀ st th, (ingest_files env (ps₁ ++ bad :: ps₂) st th).1 =
      (ingest_files env (ps₁ ++ ps₂) st th).1 := by
  have hex : extract_text env bad = none := by
    unfold extract_text
    by_cases h1 : (extOf bad == ".pdf".toList) = true
    · rw [if_pos h1, hpdf]
    · rw [if_neg h1]
      by_cases h2 : (extOf bad == ".docx".toList) = true
      · rw [if_pos h2, hdocx]
      · rw [if_neg h2]
        by_cases h3 : (extOf bad == ".txt".toList) = true
        · rw [if_pos h3, htxt]
        · rw [if_neg h3]
  have hpf : process_file env bad = none := by
    simp [process_file, hb, hex]
  have hwb : worker_outcome env bad = none := by
    unfold worker_outcome
    by_cases ht : env.times_out bad = true
    · rw [if_pos ht]
    · rw [if_neg ht]
      exact hpf
  refine ⟨hpf, ?_⟩
  intro st th
  have hcoll : collect_results env ((ps₁ ++ bad :: ps₂).filter env.isfile) =
      collect_results env (ps₁.filter env.isfile) ++
        collect_results env (ps₂.filter env.isfile) := by
    rw [List.filter_append, List.filter_cons]
    rw [if_pos (by simp [hb])]
    rw [collect_results_append]
    congr 1
    show (match worker_outcome env bad with
          | some r => r :: collect_results env (ps₂.filter env.isfile)
          | none => collect_results env (ps₂.filter env.isfile)) = _
    rw [hwb]
  rw [ingest_files_fst, ingest_files_fst, hcoll]
  conv_rhs => rw [List.filter_append, collect_results_append]

/-- Witness for `ingest_failure_isolation` on `envB`. -/
theorem ingest_failure_isolation_witness :
    process_file envB "crash.txt".toList = none ∧
    (ingest_files envB ["good.txt".toList, "crash.txt".toList] true (1 / 2)).1 =
      (ingest_files envB ["good.txt".toList] true (1 / 2)).1 := by
  have h := ingest_failure_isolation envB ["good.txt".toList] [] "crash.txt".toList
    (by decide) [] rfl [] rfl "io error".toList rfl
  exact ⟨h.1, h.2 true (1 / 2)⟩

/-! ### C6: strict threshold semantics -/

/-- C6: inclusion is strict.  With `skip_toxic = true`, a record whose
toxicity equals the threshold is never in the returned/serialized list; a
collected record with toxicity strictly below the threshold is in it; with
`skip_toxic = false` the returned list is all collected records. -/
theorem ingest_threshold_strict (env : Env) (paths : List (List Char)) (th : ℚ)
    (r : FileRecord) :
    (r.toxicity = th → r ∉ (ingest_files env paths true th).1) ∧
    (r ∈ collect_results env (paths.filter env.isfile) → r.toxicity < th →
      r ∈ (ingest_files env paths true th).1) ∧
    (ingest_files env paths false th).1 =
      collect_results env (paths.filter env.isfile) := by
  refine ⟨?_, ?_, ?_⟩
  · intro htox hmem
    rw [ingest_files_fst] at hmem
    have hinc := (List.mem_filter.mp hmem).2
    simp [includeRecord, htox] at hinc
  · intro hmem hlt
    rw [ingest_files_fst]
    exact List.mem_filter.mpr ⟨hmem, by simp [includeRecord, hlt]⟩
  · rw [ingest_files_fst]
    apply List.filter_eq_self.mpr
    intro a _
    simp [includeRecord]

/-- Witness for `ingest_threshold_strict`: a record exactly at the threshold
(0.9) is absent from the returned list. -/
theorem ingest_threshold_strict_witness :
    badRec ∉ (ingest_files envA ["good.txt".toList, "bad.txt".toList] true (9 / 10)).1 :=
  (ingest_threshold_strict envA ["good.txt".toList, "bad.txt".toList]
    (9 / 10) badRec).1 rfl

/-! ### C7: artifact framing -/

/-- C7 (counterexample): the header prints the stored score with Python's
default float rendering, not 2 decimal digits: a record with toxicity 0.8125
produces a header containing `"0.8125"`, which differs from the framing with
the 2-decimal rendering of the same score (`"0.81"`). -/
theorem write_corpus_not_two_decimals :
    write_corpus [recX] =
      ("=== File: ".toList ++ "a.txt".toList ++ " (Toxicity: ".toList ++
        "0.8125".toList ++ ") ===".toList ++ '\n' :: ("t".toList ++ ['\n', '\n'])) ∧
    write_corpus [recX] ≠
      ("=== File: ".toList ++ "a.txt".toList ++ " (Toxicity: ".toList ++
        render_score_2dp recX.toxicity ++ ") ===".toList ++ '\n' ::
          ("t".toList ++ ['\n', '\n'])) := by
  decide

/-- C7 (amended): each included record is written as the header line
`=== File: <filename> (Toxicity: <score>) ===` — where the score is printed by
Python's default rendering of the stored 4-decimal-rounded value (trailing
zeros dropped), not forced to 2 decimal digits — followed by the cleaned text
and a blank line. -/
theorem write_corpus_framing (rs : List FileRecord) :
    write_corpus rs = rs.foldr (fun r acc =>
      "=== File: ".toList ++ r.filename ++ " (Toxicity: ".toList ++
        renderTox r.toxicity ++ ") ===".toList ++
        '\n' :: (r.cleaned_text ++ '\n' :: '\n' :: acc)) [] := by
  induction rs with
  | nil => rfl
  | cons r rs ih =>
    show render_item r ++ write_corpus rs = _
    rw [ih, List.foldr_cons]
    simp [render_item, List.append_assoc]

/-! ### C9: empty batches -/

/-- C9: with an empty path list, or a list in which no path is a regular file,
`ingest_files` returns an empty record list and writes no artifact. -/
theorem ingest_empty_batch (env : Env) (paths : List (List Char)) (st : Bool) (th : ℚ)
    (h : ∀ p ∈ paths, env.isfile p = false) :
    ingest_files env paths st th = ([], none) := by
  have hf : paths.filter env.isfile = [] := by
    apply List.filter_eq_nil_iff.mpr
    intro a ha
    simp [h a ha]
  simp [ingest_files, hf]

/-- Witness for `ingest_empty_batch` at a nonexistent path. -/
theorem ingest_empty_batch_witness :
    ingest_files envA ["nope".toList] true (1 / 2) = ([], none) :=
  ingest_empty_batch envA ["nope".toList] true (1 / 2) (by decide)
